import Mathlib

/-! Verification development for the T_Lang front end (lexer + recursive-descent
parser in `T_Lang/t/Parser.h`, token and AST model in the accompanying headers).
The lexer is embedded as a step function over the remaining character list and
a fuel-driven driver loop; the parser as a mutually recursive, fuel-driven
family of functions over the remaining token list.  Machine strings are
modelled as `List Char`; the process-wide `user_defined_classnames` set is
modelled as an explicit `List (List Char)` threaded through the lexer. -/

set_option linter.unusedVariables false
set_option maxHeartbeats 2000000

namespace TLang

/-- Token kinds, in the exact order of the C++ `lexer::TokenType::Type` enum.
The order matters because `isBinaryOperator` is an ordinal comparison. -/
inductive TokenType where
  | Equals | EqualsEquals | NotEquals | GreaterThan | LessThan
  | ShiftLeft | ShiftRight | Plus | Minus | Divide | Multiply
  | Exponent | Modulus | AND | ANDAND | OR | OROR | Dot | ColonColon
  | MinusMinus | Not | PlusPlus
  | Pointer | Reference
  | string_literal | char_literal | bool_literal
  | Semicolon | Colon | Comma
  | integer_literal | negative_integer_literal | float_literal
  | Identifier | KeyWord
  | for_ | while_ | public_ | private_ | protected_ | cast_
  | return_ | null_ | in_ | if_ | constexpr_ | namespace_
  | OParen | CParen | OCurlyBrace | CCurlyBrace
  | mutable_ | class_ | ClassType | PrimitiveType | EOF_
  deriving DecidableEq, Repr

/-- Ordinal of a token kind: its position in the C++ enum. -/
def TokenType.ord : TokenType → Nat
  | .Equals => 0 | .EqualsEquals => 1 | .NotEquals => 2 | .GreaterThan => 3
  | .LessThan => 4 | .ShiftLeft => 5 | .ShiftRight => 6 | .Plus => 7
  | .Minus => 8 | .Divide => 9 | .Multiply => 10 | .Exponent => 11
  | .Modulus => 12 | .AND => 13 | .ANDAND => 14 | .OR => 15 | .OROR => 16
  | .Dot => 17 | .ColonColon => 18 | .MinusMinus => 19 | .Not => 20
  | .PlusPlus => 21 | .Pointer => 22 | .Reference => 23
  | .string_literal => 24 | .char_literal => 25 | .bool_literal => 26
  | .Semicolon => 27 | .Colon => 28 | .Comma => 29
  | .integer_literal => 30 | .negative_integer_literal => 31
  | .float_literal => 32 | .Identifier => 33 | .KeyWord => 34
  | .for_ => 35 | .while_ => 36 | .public_ => 37 | .private_ => 38
  | .protected_ => 39 | .cast_ => 40 | .return_ => 41 | .null_ => 42
  | .in_ => 43 | .if_ => 44 | .constexpr_ => 45 | .namespace_ => 46
  | .OParen => 47 | .CParen => 48 | .OCurlyBrace => 49 | .CCurlyBrace => 50
  | .mutable_ => 51 | .class_ => 52 | .ClassType => 53 | .PrimitiveType => 54
  | .EOF_ => 55

/-- `TokenType::isBinaryOperator`: `m_type < MinusMinus`. -/
def TokenType.isBinaryOperator (t : TokenType) : Bool :=
  decide (t.ord < TokenType.MinusMinus.ord)

/-- `TokenType::isAccessSpecifier`. -/
def TokenType.isAccessSpecifier (t : TokenType) : Bool :=
  t == .public_ || t == .protected_ || t == .private_

/-- A token: the literal text and the kind (`lexer::Token`). -/
structure Token where
  value : List Char
  type : TokenType
  deriving DecidableEq, Repr

/-- `Token::isRefOrPtr`. -/
def Token.isRefOrPtr (t : Token) : Bool :=
  t.type == .Reference || t.type == .Pointer

/-- `Token::isMultParseLevel`. -/
def Token.isMultParseLevel (t : Token) : Bool :=
  t.type == .Multiply || t.type == .Divide || t.type == .Modulus

/-- `Lexer::isSkippable`: blank, tab, newline, carriage return. -/
def isSkippable (c : Char) : Bool :=
  c == ' ' || c == '\t' || c == '\n' || c == '\r'

/-- `Lexer::isInt`: a decimal digit. -/
def isInt (c : Char) : Bool :=
  decide ('0' ≤ c ∧ c ≤ '9')

/-- `Lexer::isAlpha`: `toupper(c) != tolower(c)`, which over ASCII input is
exactly the two letter ranges. -/
def isAlpha (c : Char) : Bool :=
  decide (('a' ≤ c ∧ c ≤ 'z') ∨ ('A' ≤ c ∧ c ≤ 'Z'))

/-- Characters allowed to continue an identifier (`isInt() || isAlpha() || '_'`). -/
def isIdentChar (c : Char) : Bool :=
  isInt c || isAlpha c || c == '_'

/-- The `KEYWORDS` map of the lexer. -/
def KEYWORDS (id : List Char) : Option TokenType :=
  if id = "class".data then some .class_
  else if id = "private".data then some .private_
  else if id = "public".data then some .public_
  else if id = "protected".data then some .protected_
  else if id = "mutable".data then some .mutable_
  else if id = "cast".data then some .cast_
  else if id = "return".data then some .return_
  else if id = "for".data then some .for_
  else if id = "while".data then some .while_
  else if id = "in".data then some .in_
  else if id = "if".data then some .if_
  else if id = "null".data then some .null_
  else if id = "namespace".data then some .namespace_
  else none

/-- The `DEFAULT_TYPES` set of the lexer. -/
def DEFAULT_TYPES : List (List Char) :=
  ["auto", "char", "int8", "int16", "int32", "int64", "uint8", "uint16",
   "uint32", "uint64", "float", "double", "bool", "String", "void"].map String.data

/-- `Lexer::isDefaultType`. -/
def isDefaultType (id : List Char) : Bool :=
  DEFAULT_TYPES.contains id

/-- Insertion into the `user_defined_classnames` set (modelled as a list used
only through membership). -/
def insertClassname (id : List Char) (cls : List (List Char)) : List (List Char) :=
  if cls.contains id then cls else id :: cls

/-- `Lexer::buildNumber`.  `l` is the remaining input starting at the first
digit position (the character after the minus sign in the negative case).
Returns the emitted token and the remaining input at which the scan loop
resumes.  When the digits run to the end of the input, the C++ falls through
the integer branch and appends `srctext[LENGTH]` — the NUL terminator — to the
text, then emits a `float_literal`. -/
def buildNumber (isNegative : Bool) (l : List Char) : Token × List Char :=
  match l.dropWhile isInt with
  | r :: rs =>
    if r ≠ '.' then
      ((⟨(if isNegative then ['-'] else []) ++ l.takeWhile isInt,
        if isNegative then .negative_integer_literal else .integer_literal⟩ : Token), r :: rs)
    else
      ((⟨(if isNegative then ['-'] else []) ++ l.takeWhile isInt ++ r :: rs.takeWhile isInt,
        .float_literal⟩ : Token), rs.dropWhile isInt)
  | [] =>
    ((⟨(if isNegative then ['-'] else []) ++ l.takeWhile isInt ++ ['\x00'],
      .float_literal⟩ : Token), [])

/-- `Lexer::parseIdentifier`: the maximal run of identifier characters and the
remaining input. -/
def parseIdentifier (l : List Char) : List Char × List Char :=
  (l.takeWhile isIdentChar, l.dropWhile isIdentChar)

/-- `Lexer::buildIdentifier` classification of a scanned lexeme: boolean
literal, keyword, default type, class-name introduction (previous token was
`class`), known user class name, and otherwise a plain identifier.  Returns
the token together with the possibly grown class-name set. -/
def buildIdentifier (cls : List (List Char)) (last : TokenType) (id : List Char) :
    Token × List (List Char) :=
  if id = "false".data ∨ id = "true".data then (⟨id, .bool_literal⟩, cls)
  else
    match KEYWORDS id with
    | some kw => (⟨id, kw⟩, cls)
    | none =>
      if isDefaultType id then
        if id = "String".data then (⟨id, .ClassType⟩, cls)
        else (⟨id, .PrimitiveType⟩, cls)
      else if last = .class_ then (⟨id, .ClassType⟩, insertClassname id cls)
      else if cls.contains id then (⟨id, .ClassType⟩, cls)
      else (⟨id, .Identifier⟩, cls)

/-- `Lexer::buildString`.  `cs` is the input after the opening quote.  The
empty-string branch (`srctext[i+1] == '"'`) emits an empty literal but does
not advance past the second quote.  Otherwise characters are accumulated up to
the next quote; a raw newline or carriage return raises the lex error.  The
final in-bounds non-quote check from the C++ is kept although unreachable. -/
def buildString (cs : List Char) : Except String (Token × List Char) :=
  if cs.head? = some '"' then .ok (⟨[], .string_literal⟩, cs)
  else if (cs.takeWhile (fun x => x ≠ '"')).any (fun x => x == '\n' || x == '\r') then
    .error "invalid string literal!"
  else
    match cs.dropWhile (fun x => x ≠ '"') with
    | [] => .ok (⟨cs.takeWhile (fun x => x ≠ '"'), .string_literal⟩, [])
    | q :: rest =>
      if q ≠ '"' then .error "invalid string literal!"
      else .ok (⟨cs.takeWhile (fun x => x ≠ '"'), .string_literal⟩, rest)

/-- `Lexer::buildChar`.  `cs` is the input after the opening quote.  The C++
takes one character as the text and, when that character is a backslash,
appends `srctext[i]` again — the same backslash — and in every case advances
two positions past the opening quote (no closing quote is checked). -/
def buildChar (cs : List Char) : Token × List Char :=
  let ch : List Char :=
    match cs with
    | [] => []
    | a :: _ => if a = '\\' then [a, a] else [a]
  (⟨ch, .char_literal⟩, cs.drop 2)

/-- One iteration of the `Lexer::tokenize` scan loop, positioned at character
`c` with remaining input `cs`. -/
inductive StepRes where
  | emit (tok : Token) (cls : List (List Char)) (rest : List Char)
  | skip (rest : List Char)
  | lexFail (msg : String)
  | unrecognized
  deriving Repr

/-- The body of the `Lexer::tokenize` character switch.  `cls` is the
class-name set, `last` the kind of the most recently emitted token.
Whitespace is checked before the switch, as in the C++; the default case
tries a number, then an identifier, and otherwise reports the unrecognized
character. -/
def lexStep (cls : List (List Char)) (last : TokenType) (c : Char) (cs : List Char) :
    StepRes :=
  if isSkippable c then .skip cs
  else
    match c with
    | ';' => .emit ⟨[c], .Semicolon⟩ cls cs
    | ',' => .emit ⟨[c], .Comma⟩ cls cs
    | '(' => .emit ⟨[c], .OParen⟩ cls cs
    | ')' => .emit ⟨[c], .CParen⟩ cls cs
    | '\x7b' => .emit ⟨[c], .OCurlyBrace⟩ cls cs
    | '\x7d' => .emit ⟨[c], .CCurlyBrace⟩ cls cs
    | '<' =>
      if cs.head? = some '<' then .emit ⟨['<', '<'], .ShiftLeft⟩ cls cs.tail
      else .emit ⟨[c], .LessThan⟩ cls cs
    | '>' =>
      if cs.head? = some '>' then .emit ⟨['>', '>'], .ShiftRight⟩ cls cs.tail
      else .emit ⟨[c], .GreaterThan⟩ cls cs
    | '+' =>
      if cs.head? = some '+' then .emit ⟨['+', '+'], .PlusPlus⟩ cls cs.tail
      else .emit ⟨[c], .Plus⟩ cls cs
    | '~' => .emit ⟨[c], .Reference⟩ cls cs
    | '-' =>
      if cs.head? = some '>' then .emit ⟨['-', '>'], .Pointer⟩ cls cs.tail
      else if last.isBinaryOperator || last == .Equals || last == .OParen
          || last == .Comma then
        .emit (buildNumber true cs).1 cls (buildNumber true cs).2
      else if cs.head? = some '-' then .emit ⟨['-', '-'], .MinusMinus⟩ cls cs.tail
      else .emit ⟨[c], .Minus⟩ cls cs
    | '*' =>
      if cs.head? = some '*' then .emit ⟨['*', '*'], .Exponent⟩ cls cs.tail
      else .emit ⟨[c], .Multiply⟩ cls cs
    | '/' =>
      if cs.head? = some '/' then .skip (cs.dropWhile (fun x => x ≠ '\n')).tail
      else .emit ⟨[c], .Divide⟩ cls cs
    | '%' => .emit ⟨[c], .Modulus⟩ cls cs
    | ':' =>
      if cs.head? = some ':' then .emit ⟨[':', ':'], .ColonColon⟩ cls cs.tail
      else .emit ⟨[c], .Colon⟩ cls cs
    | '&' =>
      if cs.head? = some '&' then .emit ⟨['&', '&'], .ANDAND⟩ cls cs.tail
      else .emit ⟨[c], .AND⟩ cls cs
    | '|' =>
      if cs.head? = some '|' then .emit ⟨['|', '|'], .OROR⟩ cls cs.tail
      else .emit ⟨[c], .OR⟩ cls cs
    | '=' =>
      if cs.head? = some '=' then .emit ⟨['=', '='], .EqualsEquals⟩ cls cs.tail
      else .emit ⟨[c], .Equals⟩ cls cs
    | '!' =>
      if cs.head? = some '=' then .emit ⟨['!', '='], .NotEquals⟩ cls cs.tail
      else .emit ⟨[c], .Not⟩ cls cs
    | '.' =>
      match cs.head? with
      | some d =>
        if isInt d then
          .emit (buildNumber false (c :: cs)).1 cls (buildNumber false (c :: cs)).2
        else .emit ⟨[c], .Dot⟩ cls cs
      | none => .emit ⟨[c], .Dot⟩ cls cs
    | '"' =>
      match buildString cs with
      | .ok (tok, rest) => .emit tok cls rest
      | .error e => .lexFail e
    | '\'' => .emit (buildChar cs).1 cls (buildChar cs).2
    | _ =>
      if isInt c then
        .emit (buildNumber false (c :: cs)).1 cls (buildNumber false (c :: cs)).2
      else if isAlpha c then
        .emit (buildIdentifier cls last (parseIdentifier (c :: cs)).1).1
          (buildIdentifier cls last (parseIdentifier (c :: cs)).1).2
          (parseIdentifier (c :: cs)).2
      else .unrecognized

/-- The `Lexer::tokenize` scan loop, fuel-driven.  At the end of the input an
`EOF_` token is appended.  A lex error propagates the exception; an
unrecognized character makes the C++ `return TokenList()` — an empty list,
discarding the accumulated tokens (no exception).  In both cases the
class-name set keeps whatever was inserted so far.  `none` means the fuel ran
out (never happens from `tokenize`). -/
def lexLoop (fuel : Nat) (cls : List (List Char)) (last : TokenType)
    (acc : List Token) (src : List Char) :
    Option (Except String (List Token) × List (List Char)) :=
  match fuel, src with
  | 0, _ => none
  | _ + 1, [] => some (.ok (acc ++ [⟨[], .EOF_⟩]), cls)
  | n + 1, c :: cs =>
    match lexStep cls last c cs with
    | .emit tok cls' rest => lexLoop n cls' tok.type (acc ++ [tok]) rest
    | .skip rest => lexLoop n cls last acc rest
    | .lexFail e => some (.error e, cls)
    | .unrecognized => some (.ok [], cls)

/-- `Lexer::tokenize` on a source, given the current contents of the
process-wide `user_defined_classnames` set; returns the result together with
the set as left behind by this call.  `lastType` starts as the
default-constructed `TokenType`, which is `EOF_`. -/
def tokenize (cls : List (List Char)) (src : List Char) :
    Except String (List Token) × List (List Char) :=
  match lexLoop (src.length + 1) cls .EOF_ [] src with
  | some r => r
  | none => (.error "out of fuel", cls)

/-- `ast::AccessSpecifier`. -/
inductive AccessSpecifier where
  | Public | Private | Protected
  deriving DecidableEq, Repr

/-- `ast::TypeName`: a type name with its modifiers. -/
structure TypeName where
  name : List Char
  isMutable : Bool
  isRef : Bool
  isPtr : Bool
  deriving DecidableEq, Repr

/-- `ast::Parameter`: a function parameter (type with modifiers, and name). -/
structure Parameter where
  isMutable : Bool
  type : List Char
  isRef : Bool
  isPtr : Bool
  name : List Char
  deriving DecidableEq, Repr

/-- The three flavors of `ast::NumericLiteral<T>` produced by the parser:
`int64` via `atoll` for negative literals, `uint64` via `atoll` for plain
integers, `double` via `atof` for floats. -/
inductive NumFlavor where
  | I64 | U64 | F64
  deriving DecidableEq, Repr

/-- The `ast::Expression` variants the parser produces.  Statements are always
expression nodes in this parser, so statement lists are `List Expression`.
Numeric literals carry the source text (the claims under verification do not
depend on the converted numeric values, and `double` is not modelled). -/
inductive Expression where
  | identifier (symbol : List Char)
  | numericLiteral (flavor : NumFlavor) (text : List Char)
  | stringLiteral (value : List Char)
  | characterLiteral (value : List Char)
  | boolLiteral (value : Bool)
  | binary (lhs : Expression) (op : List Char) (rhs : Expression)
  | assignment (lhs : Expression) (rhs : Expression)
  | variableDeclaration (isMutable : Bool) (type : TypeName) (name : List Char)
      (value : Option Expression)
  | functionDeclaration (returnType : TypeName) (name : List Char)
      (parameters : List Parameter) (body : List Expression)
  | functionCall (name : List Char) (arguments : List Expression)
  | returnStatement (value : Expression)
  | classDeclaration (type : TypeName)
      (fields : List (AccessSpecifier × Expression))
      (methods : List (AccessSpecifier × Expression))
  | nameSpaceDeclaration (name : List Char) (body : List Expression)
  | ifStatement (condition : Expression) (body : List Expression)

/-- The token the parser sees past the end of the list.  In the C++ the
out-of-bounds `tokens[i]` is undefined; on lexer output the list ends with
`EOF_` and the parser never reads past it on the paths verified here, so the
model clamps to the `EOF_` token. -/
def eofTok : Token := ⟨[], .EOF_⟩

/-- `Parser::peek`. -/
def peek (l : List Token) : Token :=
  l.headD eofTok

/-- `Parser::peekNext`. -/
def peekNext (l : List Token) : Token :=
  (l.drop 1).headD eofTok

/-- `Parser::peekTo`, with the offset taken relative to the current position;
the C++ clamps an out-of-range index to `tokens.back()`. -/
def peekTo (l : List Token) (k : Nat) : Token :=
  match l.drop k with
  | t :: _ => t
  | [] => l.getLastD eofTok

/-- `Parser::expect`: eat one token and require its kind. -/
def expect (ty : TokenType) (err : String) (l : List Token) : Except String (Token × List Token) :=
  let tk := peek l
  if tk.type = ty then .ok (tk, l.tail)
  else .error ("Unexpected token type\n" ++ err)

/-- The two-kind overload of `Parser::expect`. -/
def expect2 (ty1 ty2 : TokenType) (err : String) (l : List Token) : Except String (Token × List Token) :=
  let tk := peek l
  if tk.type = ty1 ∨ tk.type = ty2 then .ok (tk, l.tail)
  else .error ("Unexpected token type\n" ++ err)

/-- `Parser::eatIfRefOrPtr`. -/
def eatIfRefOrPtr (l : List Token) : (Bool × Bool) × List Token :=
  if (peek l).type = .Reference then ((true, false), l.tail)
  else if (peek l).type = .Pointer then ((false, true), l.tail)
  else ((false, false), l)

/-- `Parser::eatIfMutable`. -/
def eatIfMutable (l : List Token) : Bool × List Token :=
  if (peek l).type = .mutable_ then (true, l.tail) else (false, l)

/-- The `if` condition validity check of `Parser::parseIfStatement`: the
condition must be a `BinaryExpression`, a `BoolLiteral`, or a
`NumericLiteral` of any of the three flavors. -/
def validIfCondition : Expression → Bool
  | .binary _ _ _ => true
  | .boolLiteral _ => true
  | .numericLiteral _ _ => true
  | _ => false

/-- `accessOf`: the switch inside `parseClassDefinition` updating the current
access specifier (kinds other than the three specifiers leave it unchanged,
as the C++ switch has no default). -/
def accessOf (t : TokenType) (spec : AccessSpecifier) : AccessSpecifier :=
  match t with
  | .public_ => .Public
  | .protected_ => .Protected
  | .private_ => .Private
  | _ => spec

mutual

/-- `Parser::parseStatement< AllowDeclarations >`: the statement dispatcher. -/
def parseStatement (allowDeclarations : Bool) : Nat → List Token → Except String (Expression × List Token)
  | 0, _ => .error "out of fuel"
  | n + 1, l =>
    match (peek l).type with
    | .if_ => parseIfStatement n l
    | .namespace_ =>
      if allowDeclarations then parseNameSpaceDeclaration n l
      else .error "cannot create namespace inside of if statement"
    | .Identifier => handleIdentifier n l
    | .PrimitiveType => handleType n l
    | .ClassType => handleType n l
    | .mutable_ => handleMutable n l
    | .class_ =>
      if allowDeclarations then parseClassDefinition n l
      else .error "cannot create class inside of if statement"
    | _ => parseExpression true n l

/-- `Parser::parseIfStatement`.  Note that the braced body parses each item
with `parseExpression()` (the top-level expression entry), not with the
statement dispatcher. -/
def parseIfStatement : Nat → List Token → Except String (Expression × List Token)
  | 0, _ => .error "out of fuel"
  | n + 1, l => do
    let l := l.tail
    let (_, l) ← expect .OParen "expected opening paren to start if statement" l
    let (condition, l) ← parseExpression false n l
    if validIfCondition condition = false then
      .error "invalid if condition"
    else do
      let (_, l) ← expect .CParen "expected closing paren after condition" l
      if (peek l).type = .OCurlyBrace then do
        let l := l.tail
        let (stmts, l) ← parseIfBody n l
        let (_, l) ← expect .CCurlyBrace "expected closing brace of if statement body" l
        .ok (.ifStatement condition stmts, l)
      else do
        let (s, l) ← parseStatement false n l
        .ok (.ifStatement condition [s], l)

/-- The braced-body loop of `parseIfStatement`: until `CCurlyBrace`, each item
comes from `parseExpression()`. -/
def parseIfBody : Nat → List Token → Except String (List Expression × List Token)
  | 0, _ => .error "out of fuel"
  | n + 1, l =>
    if (peek l).type = .CCurlyBrace then .ok ([], l)
    else do
      let (e, l) ← parseExpression true n l
      let (rest, l) ← parseIfBody n l
      .ok (e :: rest, l)

/-- `Parser::parseNameSpaceDeclaration`. -/
def parseNameSpaceDeclaration : Nat → List Token → Except String (Expression × List Token)
  | 0, _ => .error "out of fuel"
  | n + 1, l => do
    let l := l.tail
    let (nm, l) ← expect .Identifier "namespace must have a name" l
    let (_, l) ← expect .OCurlyBrace "expected obening bracket to namespace declaration" l
    let (body, l) ← parseNsBody n l
    let (_, l) ← expect .CCurlyBrace "expected closing bracket to end namespace declaration" l
    .ok (.nameSpaceDeclaration nm.value body, l)

/-- The namespace body loop: full statement dispatch until `CCurlyBrace`. -/
def parseNsBody : Nat → List Token → Except String (List Expression × List Token)
  | 0, _ => .error "out of fuel"
  | n + 1, l =>
    if (peek l).type = .CCurlyBrace then .ok ([], l)
    else do
      let (s, l) ← parseStatement true n l
      let (rest, l) ← parseNsBody n l
      .ok (s :: rest, l)

/-- `Parser::parseClassDefinition`. -/
def parseClassDefinition : Nat → List Token → Except String (Expression × List Token)
  | 0, _ => .error "out of fuel"
  | n + 1, l => do
    let l := l.tail
    let (tyTok, l) ← expect .ClassType "Class type must follow class keyword" l
    let (_, l) ← expect .OCurlyBrace "expected opening bracket to start class definition" l
    let ((fields, methods), l) ← parseClassBody .Public n l
    let (_, l) ← expect .CCurlyBrace "expected closing bracket to class definition" l
    .ok (.classDeclaration ⟨tyTok.value, false, false, false⟩ fields methods, l)

/-- One iteration of the class-member loop of `parseClassDefinition`:
handle an optional `mutable` prefix (lookahead only) or an access specifier,
then dispatch the member. -/
def parseClassBody (spec : AccessSpecifier) :
    Nat → List Token → Except String ((List (AccessSpecifier × Expression) × List (AccessSpecifier × Expression)) × List Token)
  | 0, _ => .error "out of fuel"
  | n + 1, l =>
    if (peek l).type = .CCurlyBrace then .ok (([], []), l)
    else
      let tk := peek l
      if tk.type = .mutable_ then
        parseClassMember spec 1 (peekNext l) n l
      else if tk.type.isAccessSpecifier then do
        let l := l.tail
        let spec := accessOf tk.type spec
        let (_, l) ← expect .Colon "expected colon after access specifier" l
        parseClassMember spec 0 (peek l) n l
      else
        parseClassMember spec 0 tk n l

/-- The tail of a class-member iteration: require a type token at `tk`, look
past an optional ref/ptr sigil and the identifier, then parse a method (next
relevant token is `OParen`) or a field. -/
def parseClassMember (spec : AccessSpecifier) (idx : Nat) (tk : Token) :
    Nat → List Token → Except String ((List (AccessSpecifier × Expression) × List (AccessSpecifier × Expression)) × List Token)
  | 0, _ => .error "out of fuel"
  | n + 1, l =>
    if tk.type ≠ .ClassType ∧ tk.type ≠ .PrimitiveType then
      .error "Inner class definition requires type name"
    else
      let tk2 := peekTo l (1 + idx)
      let (idx, tk2) :=
        if tk2.isRefOrPtr then (idx + 1, peekTo l (1 + (idx + 1))) else (idx, tk2)
      let tk3 := peekTo l (2 + idx)
      if tk3.type = .OParen then do
        let (f, l) ← parseFunctionDeclaration n l
        let ((fs, ms), l) ← parseClassBody spec n l
        .ok ((fs, (spec, f) :: ms), l)
      else do
        let (v, l) ← parseVariableDeclaration n l
        let ((fs, ms), l) ← parseClassBody spec n l
        .ok (((spec, v) :: fs, ms), l)

/-- `Parser::handleType`: disambiguate between a variable declaration with
initializer (`Equals` after the identifier) and a function declaration. -/
def handleType : Nat → List Token → Except String (Expression × List Token)
  | 0, _ => .error "out of fuel"
  | n + 1, l =>
    let tk := peekNext l
    let (tk, idx) := if tk.isRefOrPtr then (peekTo l 2, 1) else (tk, 0)
    if tk.type ≠ .Identifier then .error "Identifier expected after type"
    else
      let tk2 := peekTo l (2 + idx)
      if tk2.type = .Equals then parseVariableDeclaration n l
      else parseFunctionDeclaration n l

/-- `Parser::handleMutable`. -/
def handleMutable : Nat → List Token → Except String (Expression × List Token)
  | 0, _ => .error "out of fuel"
  | n + 1, l =>
    let tk := peekNext l
    if tk.type ≠ .ClassType ∧ tk.type ≠ .PrimitiveType then
      .error "expected type after 'mutable' keyword"
    else
      let tk2 := peekTo l 2
      let (tk2, idx) := if tk2.isRefOrPtr then (peekTo l 3, 1) else (tk2, 0)
      if tk2.type = .Equals then parseAssignmentExpression true n l
      else if tk2.type = .Identifier then
        let tk3 := (peekTo l (3 + idx)).type
        if tk3 = .Equals ∨ tk3 = .Semicolon then parseVariableDeclaration n l
        else parseFunctionDeclaration n l
      else .error "unkown token found"

/-- `Parser::handleIdentifier`. -/
def handleIdentifier : Nat → List Token → Except String (Expression × List Token)
  | 0, _ => .error "out of fuel"
  | n + 1, l => parseAssignmentExpression true n l

/-- `Parser::parseFunctionDeclaration`. -/
def parseFunctionDeclaration : Nat → List Token → Except String (Expression × List Token)
  | 0, _ => .error "out of fuel"
  | n + 1, l => do
    let (isMutable, l) := eatIfMutable l
    let (ty, l) ← expect2 .ClassType .PrimitiveType "function must have return type" l
    let ((isRef, isPtr), l) := eatIfRefOrPtr l
    let (fname, l) ← expect .Identifier "function must have name" l
    let (_, l) ← expect .OParen "missing open paren to start parameter list" l
    let (ps, l) ← parseParamList fname.value n l
    let (_, l) ← expect .CParen "missing closing paren of parameter list" l
    let (_, l) ← expect .OCurlyBrace "missing opening bracket of function body" l
    let (body, l) ← parseFunctionBody n l
    let (_, l) ← expect .CCurlyBrace
      ("No matching closing bracket on function " ++ String.mk fname.value) l
    .ok (.functionDeclaration ⟨ty.value, isMutable, isRef, isPtr⟩ fname.value ps body, l)

/-- The parameter-list loop of `parseFunctionDeclaration`: while the next
token is a type token or `mutable`, read one parameter; after it, a `Comma`
is eaten and the loop continues, a `CParen` stops it, and anything else is
the error naming the function. -/
def parseParamList (fname : List Char) : Nat → List Token → Except String (List Parameter × List Token)
  | 0, _ => .error "out of fuel"
  | n + 1, l =>
    if (peek l).type = .ClassType ∨ (peek l).type = .PrimitiveType
        ∨ (peek l).type = .mutable_ then do
      let (isMutable, l) := eatIfMutable l
      let (ptyTok, l) := (peek l, l.tail)
      let ((isRef, isPtr), l) := eatIfRefOrPtr l
      let (pname, l) ← expect .Identifier "parameters must have a type and name" l
      let maybeComma := peek l
      if maybeComma.type = .Comma then do
        let l := l.tail
        let (rest, l) ← parseParamList fname n l
        .ok (⟨isMutable, ptyTok.value, isRef, isPtr, pname.value⟩ :: rest, l)
      else if maybeComma.type ≠ .CParen then
        .error ("invalid parameter list for function " ++ String.mk fname)
      else do
        let (rest, l) ← parseParamList fname n l
        .ok (⟨isMutable, ptyTok.value, isRef, isPtr, pname.value⟩ :: rest, l)
    else .ok ([], l)

/-- The function-body loop of `parseFunctionDeclaration`: until
`CCurlyBrace`; a token whose text is `return` produces a return statement and
breaks the loop. -/
def parseFunctionBody : Nat → List Token → Except String (List Expression × List Token)
  | 0, _ => .error "out of fuel"
  | n + 1, l =>
    if (peek l).type = .CCurlyBrace then .ok ([], l)
    else if (peek l).value = "return".data then do
      let (r, l) ← parseReturnStatement n l
      .ok ([r], l)
    else do
      let (s, l) ← parseStatement true n l
      let (rest, l) ← parseFunctionBody n l
      .ok (s :: rest, l)

/-- `Parser::parseReturnStatement`. -/
def parseReturnStatement : Nat → List Token → Except String (Expression × List Token)
  | 0, _ => .error "out of fuel"
  | n + 1, l => do
    let (_, l) ← expect .return_ "" l
    let (s, l) ← parseStatement true n l
    .ok (.returnStatement s, l)

/-- `Parser::parseVariableDeclaration`.  In the `Semicolon` branch the node is
constructed with `isMutable = false` unconditionally; in the `Equals` branch
it carries the parsed `mutable` prefix and the initializer. -/
def parseVariableDeclaration : Nat → List Token → Except String (Expression × List Token)
  | 0, _ => .error "out of fuel"
  | n + 1, l =>
    match expect2 .ClassType .PrimitiveType "expected type in variable declaration"
        (eatIfMutable l).2 with
    | .error s => .error s
    | .ok tyP =>
      match expect .Identifier "Expected an identifier for a variable" (eatIfRefOrPtr tyP.2).2 with
      | .error s => .error s
      | .ok nmP =>
        if (peek nmP.2).type = .Semicolon then
          .ok (.variableDeclaration false
            ⟨tyP.1.value, (eatIfMutable l).1, (eatIfRefOrPtr tyP.2).1.1, (eatIfRefOrPtr tyP.2).1.2⟩
            nmP.1.value none, nmP.2.tail)
        else
          match expect .Equals "Expected an '=' after identifier." nmP.2 with
          | .error s => .error s
          | .ok eqP =>
            match parseExpression true n eqP.2 with
            | .error s => .error s
            | .ok vP =>
              .ok (.variableDeclaration (eatIfMutable l).1
                ⟨tyP.1.value, (eatIfMutable l).1, (eatIfRefOrPtr tyP.2).1.1,
                  (eatIfRefOrPtr tyP.2).1.2⟩
                nmP.1.value (some vP.1), vP.2)

/-- `Parser::parseExpression< TopCall >`. -/
def parseExpression (topCall : Bool) : Nat → List Token → Except String (Expression × List Token)
  | 0, _ => .error "out of fuel"
  | n + 1, l => parseAssignmentExpression topCall n l

/-- `Parser::parseAssignmentExpression< TopCall >`.  On the top-level call, a
type token or ref/ptr sigil at `peekNext()` routes to
`parseVariableDeclaration` (returning immediately, without the trailing
semicolon check of this level). -/
def parseAssignmentExpression (topCall : Bool) : Nat → List Token → Except String (Expression × List Token)
  | 0, _ => .error "out of fuel"
  | n + 1, l =>
    if topCall ∧ ((peekNext l).type = .ClassType ∨ (peekNext l).type = .PrimitiveType
        ∨ (peekNext l).type = .Reference ∨ (peekNext l).type = .Pointer) then
      parseVariableDeclaration n l
    else do
      let (left, l) ← parseBooleanExpression n l
      let (left, l) ←
        if (peek l).type = .Equals then do
          let l := l.tail
          let (right, l) ← parseAssignmentExpression false n l
          pure (Expression.assignment left right, l)
        else pure (left, l)
      if topCall then do
        let (_, l) ← expect .Semicolon "must end statement with semicolon" l
        .ok (left, l)
      else .ok (left, l)

/-- `Parser::parseFunctionCall< isLoneCall >`. -/
def parseFunctionCall (isLoneCall : Bool) : Nat → List Token → Except String (Expression × List Token)
  | 0, _ => .error "out of fuel"
  | n + 1, l => do
    let (fname, l) ← expect .Identifier "Expected function name" l
    let (_, l) ← expect .OParen "Function call must have open paren" l
    let (args, l) ← parseCallArgs n l
    let (_, l) ← expect .CParen "Expected closing paren to end function call" l
    if isLoneCall then do
      let (_, l) ← expect .Semicolon "Expected semicolon to end statement" l
      .ok (.functionCall fname.value args, l)
    else .ok (.functionCall fname.value args, l)

/-- The argument loop of `parseFunctionCall`: additive-level expressions until
`CParen`, with a `Comma` between them eaten when present. -/
def parseCallArgs : Nat → List Token → Except String (List Expression × List Token)
  | 0, _ => .error "out of fuel"
  | n + 1, l =>
    if (peek l).type = .CParen then .ok ([], l)
    else do
      let (e, l) ← parseAdditiveExpression n l
      let l := if (peek l).type = .Comma then l.tail else l
      let (rest, l) ← parseCallArgs n l
      .ok (e :: rest, l)

/-- `Parser::parseBooleanExpression`. -/
def parseBooleanExpression : Nat → List Token → Except String (Expression × List Token)
  | 0, _ => .error "out of fuel"
  | n + 1, l => do
    let (left, l) ← parseAdditiveExpression n l
    parseBooleanFold left n l

/-- The fold loop of `parseBooleanExpression` (`==` and `!=`). -/
def parseBooleanFold (left : Expression) : Nat → List Token → Except String (Expression × List Token)
  | 0, _ => .error "out of fuel"
  | n + 1, l =>
    if (peek l).type = .EqualsEquals ∨ (peek l).type = .NotEquals then do
      let op := (peek l).value
      let l := l.tail
      let (right, l) ← parseAdditiveExpression n l
      parseBooleanFold (.binary left op right) n l
    else .ok (left, l)

/-- `Parser::parseAdditiveExpression`.  The loop guard compares the token
text against `"+"` and `"-"`. -/
def parseAdditiveExpression : Nat → List Token → Except String (Expression × List Token)
  | 0, _ => .error "out of fuel"
  | n + 1, l => do
    let (left, l) ← parseMultiplicativeExpression n l
    parseAdditiveFold left n l

/-- The fold loop of `parseAdditiveExpression`. -/
def parseAdditiveFold (left : Expression) : Nat → List Token → Except String (Expression × List Token)
  | 0, _ => .error "out of fuel"
  | n + 1, l =>
    if (peek l).value = ['+'] ∨ (peek l).value = ['-'] then do
      let op := (peek l).value
      let l := l.tail
      let (right, l) ← parseMultiplicativeExpression n l
      parseAdditiveFold (.binary left op right) n l
    else .ok (left, l)

/-- `Parser::parseMultiplicativeExpression`. -/
def parseMultiplicativeExpression : Nat → List Token → Except String (Expression × List Token)
  | 0, _ => .error "out of fuel"
  | n + 1, l => do
    let (left, l) ← parseExponentialExpression n l
    parseMultiplicativeFold left n l

/-- The fold loop of `parseMultiplicativeExpression` (`isMultParseLevel`). -/
def parseMultiplicativeFold (left : Expression) : Nat → List Token → Except String (Expression × List Token)
  | 0, _ => .error "out of fuel"
  | n + 1, l =>
    if (peek l).isMultParseLevel then do
      let op := (peek l).value
      let l := l.tail
      let (right, l) ← parseExponentialExpression n l
      parseMultiplicativeFold (.binary left op right) n l
    else .ok (left, l)

/-- `Parser::parseExponentialExpression`. -/
def parseExponentialExpression : Nat → List Token → Except String (Expression × List Token)
  | 0, _ => .error "out of fuel"
  | n + 1, l => do
    let (left, l) ← parseDotExpression n l
    parseExponentialFold left n l

/-- The fold loop of `parseExponentialExpression` (`**`). -/
def parseExponentialFold (left : Expression) : Nat → List Token → Except String (Expression × List Token)
  | 0, _ => .error "out of fuel"
  | n + 1, l =>
    if (peek l).type = .Exponent then do
      let op := (peek l).value
      let l := l.tail
      let (right, l) ← parseDotExpression n l
      parseExponentialFold (.binary left op right) n l
    else .ok (left, l)

/-- `Parser::parseDotExpression`. -/
def parseDotExpression : Nat → List Token → Except String (Expression × List Token)
  | 0, _ => .error "out of fuel"
  | n + 1, l => do
    let (left, l) ← parsePrimaryExpression n l
    parseDotFold left n l

/-- The fold loop of `parseDotExpression` (`.`). -/
def parseDotFold (left : Expression) : Nat → List Token → Except String (Expression × List Token)
  | 0, _ => .error "out of fuel"
  | n + 1, l =>
    if (peek l).type = .Dot then do
      let op := (peek l).value
      let l := l.tail
      let (right, l) ← parsePrimaryExpression n l
      parseDotFold (.binary left op right) n l
    else .ok (left, l)

/-- `Parser::parsePrimaryExpression`. -/
def parsePrimaryExpression : Nat → List Token → Except String (Expression × List Token)
  | 0, _ => .error "out of fuel"
  | n + 1, l =>
    match (peek l).type with
    | .Identifier =>
      if (peekNext l).type = .OParen then parseFunctionCall false n l
      else .ok (.identifier (peek l).value, l.tail)
    | .negative_integer_literal => .ok (.numericLiteral .I64 (peek l).value, l.tail)
    | .integer_literal => .ok (.numericLiteral .U64 (peek l).value, l.tail)
    | .float_literal => .ok (.numericLiteral .F64 (peek l).value, l.tail)
    | .string_literal => .ok (.stringLiteral (peek l).value, l.tail)
    | .char_literal => .ok (.characterLiteral (peek l).value, l.tail)
    | .bool_literal => .ok (.boolLiteral ((peek l).value = "true".data), l.tail)
    | .OParen => do
      let l := l.tail
      let (v, l) ← parseExpression false n l
      let (_, l) ← expect .CParen "No closing paren!" l
      .ok (v, l)
    | _ => .error "Unexpected token found during parsing!"

end

/-- `Parser::produceAST`: statements until `EOF_`. -/
def produceAST : Nat → List Token → Except String (List Expression)
  | 0, _ => .error "out of fuel"
  | n + 1, l =>
    if (peek l).type = .EOF_ then .ok []
    else do
      let (s, l') ← parseStatement true n l
      let rest ← produceAST n l'
      .ok (s :: rest)

/-- Token list of the source `int32 f ( int32 a , ) \x7b \x7d` — a function
declaration whose parameter list ends in a trailing comma. -/
def exFnTrailingComma : List Token :=
  [⟨"int32".data, .PrimitiveType⟩, ⟨['f'], .Identifier⟩, ⟨['('], .OParen⟩,
   ⟨"int32".data, .PrimitiveType⟩, ⟨['a'], .Identifier⟩, ⟨[','], .Comma⟩,
   ⟨[')'], .CParen⟩, ⟨['\x7b'], .OCurlyBrace⟩, ⟨['\x7d'], .CCurlyBrace⟩, eofTok]

/-- Token list of `if (true) \x7b if (true) x = 1; \x7d` — an if statement whose
braced body contains a nested if statement. -/
def exIfNestedBraced : List Token :=
  [⟨"if".data, .if_⟩, ⟨['('], .OParen⟩, ⟨"true".data, .bool_literal⟩, ⟨[')'], .CParen⟩,
   ⟨['\x7b'], .OCurlyBrace⟩,
   ⟨"if".data, .if_⟩, ⟨['('], .OParen⟩, ⟨"true".data, .bool_literal⟩, ⟨[')'], .CParen⟩,
   ⟨['x'], .Identifier⟩, ⟨['='], .Equals⟩, ⟨['1'], .integer_literal⟩, ⟨[';'], .Semicolon⟩,
   ⟨['\x7d'], .CCurlyBrace⟩, eofTok]

/-- Token list of `if (true) if (true) x = 1;` — the unbraced single-statement
form with a nested if statement. -/
def exIfNestedUnbraced : List Token :=
  [⟨"if".data, .if_⟩, ⟨['('], .OParen⟩, ⟨"true".data, .bool_literal⟩, ⟨[')'], .CParen⟩,
   ⟨"if".data, .if_⟩, ⟨['('], .OParen⟩, ⟨"true".data, .bool_literal⟩, ⟨[')'], .CParen⟩,
   ⟨['x'], .Identifier⟩, ⟨['='], .Equals⟩, ⟨['1'], .integer_literal⟩, ⟨[';'], .Semicolon⟩,
   eofTok]

/-- Token list of `if (true) \x7b x = 1; \x7d` — a braced body holding an
assignment expression. -/
def exIfAssignBraced : List Token :=
  [⟨"if".data, .if_⟩, ⟨['('], .OParen⟩, ⟨"true".data, .bool_literal⟩, ⟨[')'], .CParen⟩,
   ⟨['\x7b'], .OCurlyBrace⟩,
   ⟨['x'], .Identifier⟩, ⟨['='], .Equals⟩, ⟨['1'], .integer_literal⟩, ⟨[';'], .Semicolon⟩,
   ⟨['\x7d'], .CCurlyBrace⟩, eofTok]

/-- Token list of `mutable int32 y;` — a mutable-prefixed declaration without
initializer. -/
def exMutNoInit : List Token :=
  [⟨"mutable".data, .mutable_⟩, ⟨"int32".data, .PrimitiveType⟩, ⟨['y'], .Identifier⟩,
   ⟨[';'], .Semicolon⟩, eofTok]

/-- Token list of `mutable int32 y = 1;` — a mutable-prefixed declaration with
initializer. -/
def exMutInit : List Token :=
  [⟨"mutable".data, .mutable_⟩, ⟨"int32".data, .PrimitiveType⟩, ⟨['y'], .Identifier⟩,
   ⟨['='], .Equals⟩, ⟨['1'], .integer_literal⟩, ⟨[';'], .Semicolon⟩, eofTok]

/-- A character outside every case of the lexer switch: not whitespace, not
one of the punctuation/operator characters, not a digit, and not a letter.
On such a character `tokenize` returns the empty token list. -/
def unrecognizedChar (c : Char) : Bool :=
  !(isSkippable c) && c != ';' && c != ',' && c != '(' && c != ')'
    && c != '\x7b' && c != '\x7d' && c != '<' && c != '>' && c != '+' && c != '~'
    && c != '-' && c != '*' && c != '/' && c != '%' && c != ':' && c != '&'
    && c != '|' && c != '=' && c != '!' && c != '.' && c != '"' && c != '\''
    && !(isInt c) && !(isAlpha c)

/-- Two snapshots of the `user_defined_classnames` set are equivalent when
they agree on membership of every name. -/
def clsEquiv (a b : List (List Char)) : Prop :=
  ∀ id, a.contains id = b.contains id

/-- Lexer steps related up to class-name-set equivalence: same token and rest,
equivalent updated sets. -/
@[reducible] def StepRes.equivRes : StepRes → StepRes → Prop
  | .emit t ca r, .emit t2 cb r2 => t = t2 ∧ r = r2 ∧ clsEquiv ca cb
  | .skip r, .skip r2 => r = r2
  | .lexFail m, .lexFail m2 => m = m2
  | .unrecognized, .unrecognized => True
  | _, _ => False

/-- Scan-loop outcomes related up to class-name-set equivalence: identical
token-list results, equivalent final sets. -/
@[reducible] def lexOutEquiv (x y : Option (Except String (List Token) × List (List Char))) : Prop :=
  match x, y with
  | some (ra, ca), some (rb, cb) => ra = rb ∧ clsEquiv ca cb
  | none, none => True
  | _, _ => False

/-! Claim theorems and supporting lemmas. -/

/-- C1, counterexample: on the single unrecognized character `#` the lexer
returns the empty token list (the C++ `return TokenList()` path), so the
returned list does not end with an `EOF_` token. -/
theorem C1_counterexample :
    (tokenize [] ['#']).1 = .ok ([] : List Token) ∧
      (([] : List Token).getLast? = none) := by
  exact ⟨rfl, rfl⟩

/-- C2, counterexample: the input consisting of a quote followed by `abc`
ends in a string literal with no closing quote, yet `tokenize` succeeds and
returns a token list (the tail of the input becomes the literal text) instead
of raising a lex error. -/
theorem C2_counterexample :
    (tokenize [] ('"' :: "abc".data)).1 =
      .ok [⟨"abc".data, .string_literal⟩, ⟨[], .EOF_⟩] := by
  rfl

/-- C3, counterexample: tokenizing `class Foo` first grows the process-wide
class-name set, after which tokenizing `Foo` yields a `ClassType` token where
a fresh process yields an `Identifier` token — two invocations of `tokenize`
on the same source string disagree because of an earlier tokenization. -/
theorem C3_counterexample :
    (tokenize [] "Foo".data).1 = .ok [⟨"Foo".data, .Identifier⟩, ⟨[], .EOF_⟩] ∧
    (tokenize [] "class Foo".data).2 = ["Foo".data] ∧
    (tokenize ["Foo".data] "Foo".data).1 =
      .ok [⟨"Foo".data, .ClassType⟩, ⟨[], .EOF_⟩] ∧
    TokenType.Identifier ≠ TokenType.ClassType := by
  exact ⟨rfl, rfl, rfl, by decide⟩

/-- C4, counterexample: in `x-3.5;` the minus follows an identifier (not a
signed context), and the code emits a `Minus` token followed by a
`float_literal` token — not the `integer_literal` the claim requires for
every non-signed occurrence of a minus immediately followed by digits. -/
theorem C4_counterexample :
    (tokenize [] "x-3.5;".data).1 =
      .ok [⟨['x'], .Identifier⟩, ⟨['-'], .Minus⟩, ⟨"3.5".data, .float_literal⟩,
           ⟨[';'], .Semicolon⟩, ⟨[], .EOF_⟩] ∧
    TokenType.float_literal ≠ TokenType.integer_literal := by
  exact ⟨rfl, by decide⟩

/-- C6, counterexample: parsing `if (true) \x7b if (true) x = 1; \x7d` fails,
because the braced if body parses its items with `parseExpression`, which
rejects the nested `if` keyword — the claim that any non-declaration
statement (for example a nested if) is accepted inside the braces is false. -/
theorem C6_counterexample :
    (parseIfStatement 50 exIfNestedBraced).isOk = false := by
  decide

/-- C7: evaluating the lexer on the two-character input `""` shows the code
bug — the empty-string branch of `buildString` does not advance past the
closing quote, so the closing quote is scanned again and the lexer emits two
empty `string_literal` tokens instead of exactly one. -/
theorem C7_theorem :
    (tokenize [] ['"', '"']).1 =
      .ok [⟨[], .string_literal⟩, ⟨[], .string_literal⟩, ⟨[], .EOF_⟩] ∧
    ((2 : Nat) ≠ 1) := by
  exact ⟨rfl, by decide⟩

/-- C8: evaluating the lexer on the input `'` `\` `n` shows the code bug —
`buildChar` appends the backslash it just inspected instead of the following
source character, so the token text is two backslashes rather than a
backslash followed by `n` (which is skipped). -/
theorem C8_theorem :
    (tokenize [] ['\'', '\\', 'n']).1 =
      .ok [⟨['\\', '\\'], .char_literal⟩, ⟨[], .EOF_⟩] ∧
    (['\\', '\\'] : List Char) ≠ ['\\', 'n'] := by
  exact ⟨rfl, by decide⟩

/-- C9, counterexample: the parameter list `(int32 a,)` with a trailing comma
is accepted by `parseFunctionDeclaration` — the loop simply stops at the
`CParen` after eating the comma, and the declaration parses successfully,
contradicting the claimed rejection. -/
theorem C9_counterexample :
    parseFunctionDeclaration 50 exFnTrailingComma =
      .ok (.functionDeclaration ⟨"int32".data, false, false, false⟩ ['f']
        [⟨false, "int32".data, false, false, ['a']⟩] [], [eofTok]) := by
  rfl


/-- The token built by `buildNumber` is one of the three numeric kinds. -/
theorem buildNumber_fst_type (b : Bool) (l : List Char) :
    (buildNumber b l).1.type = .negative_integer_literal ∨
    (buildNumber b l).1.type = .integer_literal ∨
    (buildNumber b l).1.type = .float_literal := by
  unfold buildNumber
  repeat' split
  all_goals simp

/-- The token built by `buildNumber` is never `EOF_`. -/
theorem buildNumber_fst_ne_eof (b : Bool) (l : List Char) :
    (buildNumber b l).1.type ≠ .EOF_ := by
  rcases buildNumber_fst_type b l with h | h | h <;> rw [h] <;> decide

/-- The keyword table never maps to `EOF_`. -/
theorem KEYWORDS_ne_eof (id : List Char) (k : TokenType) (h : KEYWORDS id = some k) :
    k ≠ .EOF_ := by
  unfold KEYWORDS at h
  by_cases h0 : id = "class".data
  · rw [if_pos h0] at h; injection h with h; subst h; decide
  · rw [if_neg h0] at h
    by_cases h1 : id = "private".data
    · rw [if_pos h1] at h; injection h with h; subst h; decide
    · rw [if_neg h1] at h
      by_cases h2 : id = "public".data
      · rw [if_pos h2] at h; injection h with h; subst h; decide
      · rw [if_neg h2] at h
        by_cases h3 : id = "protected".data
        · rw [if_pos h3] at h; injection h with h; subst h; decide
        · rw [if_neg h3] at h
          by_cases h4 : id = "mutable".data
          · rw [if_pos h4] at h; injection h with h; subst h; decide
          · rw [if_neg h4] at h
            by_cases h5 : id = "cast".data
            · rw [if_pos h5] at h; injection h with h; subst h; decide
            · rw [if_neg h5] at h
              by_cases h6 : id = "return".data
              · rw [if_pos h6] at h; injection h with h; subst h; decide
              · rw [if_neg h6] at h
                by_cases h7 : id = "for".data
                · rw [if_pos h7] at h; injection h with h; subst h; decide
                · rw [if_neg h7] at h
                  by_cases h8 : id = "while".data
                  · rw [if_pos h8] at h; injection h with h; subst h; decide
                  · rw [if_neg h8] at h
                    by_cases h9 : id = "in".data
                    · rw [if_pos h9] at h; injection h with h; subst h; decide
                    · rw [if_neg h9] at h
                      by_cases h10 : id = "if".data
                      · rw [if_pos h10] at h; injection h with h; subst h; decide
                      · rw [if_neg h10] at h
                        by_cases h11 : id = "null".data
                        · rw [if_pos h11] at h; injection h with h; subst h; decide
                        · rw [if_neg h11] at h
                          by_cases h12 : id = "namespace".data
                          · rw [if_pos h12] at h; injection h with h; subst h; decide
                          · rw [if_neg h12] at h
                            exact Option.noConfusion h

/-- The token built by `buildIdentifier` is never `EOF_`. -/
theorem buildIdentifier_fst_ne_eof (cls : List (List Char)) (last : TokenType)
    (id : List Char) : (buildIdentifier cls last id).1.type ≠ .EOF_ := by
  unfold buildIdentifier
  repeat' split
  all_goals first
    | exact (by decide : TokenType.bool_literal ≠ TokenType.EOF_)
    | exact (by decide : TokenType.ClassType ≠ TokenType.EOF_)
    | exact (by decide : TokenType.PrimitiveType ≠ TokenType.EOF_)
    | exact (by decide : TokenType.Identifier ≠ TokenType.EOF_)
    | (rename_i kw hk; exact KEYWORDS_ne_eof id kw hk)

/-- A token produced by a successful `buildString` is a string literal. -/
theorem buildString_ok_type (cs : List Char) (tok : Token) (rest : List Char)
    (h : buildString cs = .ok (tok, rest)) : tok.type = .string_literal := by
  unfold buildString at h
  repeat' split at h
  all_goals first
    | exact Except.noConfusion h
    | (injection h with h; injection h with h1 h2; rw [← h1])

/-- The token built by `buildChar` is a character literal. -/
theorem buildChar_fst_type (cs : List Char) : (buildChar cs).1.type = .char_literal := by
  cases cs <;> simp [buildChar]

/-- Every token emitted by a lexer step has a kind other than `EOF_`: the
`EOF_` token is appended only at the very end of the scan loop. -/
theorem lexStep_emit_ne_eof (cls : List (List Char)) (last : TokenType) (c : Char)
    (cs : List Char) (tok : Token) (cls2 : List (List Char)) (rest : List Char)
    (h : lexStep cls last c cs = .emit tok cls2 rest) : tok.type ≠ .EOF_ := by
  unfold lexStep at h
  cases hbs : buildString cs with
  | ok p =>
    rcases p with ⟨t4, r4⟩
    rw [hbs] at h
    repeat' split at h
    all_goals first
      | exact StepRes.noConfusion h
      | (injection h with h1 h2 h3; rw [← h1])
    any_goals apply buildNumber_fst_ne_eof
    any_goals apply buildIdentifier_fst_ne_eof
    any_goals simp [buildChar_fst_type]
    rename_i xv tok2 rest2 heq
    injection heq with heq2
    injection heq2 with ha hb
    rw [← ha, buildString_ok_type cs t4 r4 hbs]
    simp
  | error e =>
    rw [hbs] at h
    repeat' split at h
    all_goals first
      | exact StepRes.noConfusion h
      | (injection h with h1 h2 h3; rw [← h1])
    any_goals apply buildNumber_fst_ne_eof
    any_goals apply buildIdentifier_fst_ne_eof
    any_goals simp [buildChar_fst_type]
    rename_i xv tok2 rest2 heq
    exact Except.noConfusion heq

/-- Invariant of the scan loop: a successfully returned token list is either
the empty list of the unrecognized-character path, or the accumulated tokens
followed by the final `EOF_` token, with no `EOF_` among the former. -/
theorem lexLoop_ok_eof : ∀ (fuel : Nat) (cls : List (List Char)) (last : TokenType)
    (acc : List Token) (src : List Char) (r : List Token) (cls2 : List (List Char)),
    (∀ t ∈ acc, t.type ≠ TokenType.EOF_) →
    lexLoop fuel cls last acc src = some (.ok r, cls2) →
    r = [] ∨ ∃ pre, r = pre ++ [(⟨[], .EOF_⟩ : Token)] ∧
      ∀ t ∈ pre, t.type ≠ TokenType.EOF_ := by
  intro fuel
  induction fuel with
  | zero =>
    intro cls last acc src r cls2 hacc h
    simp [lexLoop] at h
  | succ n ih =>
    intro cls last acc src r cls2 hacc h
    cases src with
    | nil =>
      simp only [lexLoop, Option.some.injEq, Prod.mk.injEq, Except.ok.injEq] at h
      right
      exact ⟨acc, h.1.symm, hacc⟩
    | cons c cs =>
      rw [lexLoop] at h
      cases hstep : lexStep cls last c cs with
      | emit tok cls3 rest =>
        rw [hstep] at h
        refine ih cls3 tok.type (acc ++ [tok]) rest r cls2 ?_ h
        intro t ht
        rcases List.mem_append.mp ht with h1 | h1
        · exact hacc t h1
        · simp only [List.mem_singleton] at h1
          subst h1
          exact lexStep_emit_ne_eof cls last c cs _ _ _ hstep
      | skip rest =>
        rw [hstep] at h
        exact ih cls last acc rest r cls2 hacc h
      | lexFail e =>
        rw [hstep] at h
        simp at h
      | unrecognized =>
        rw [hstep] at h
        simp only [Option.some.injEq, Prod.mk.injEq, Except.ok.injEq] at h
        left
        exact h.1.symm

/-- C1 (amended): every token list returned by `tokenize` is either the empty
list — the unrecognized-character path, which discards all tokens — or ends
with the `EOF_` token and contains no other token of kind `EOF_`. -/
theorem C1_theorem (cls : List (List Char)) (src : List Char) (r : List Token)
    (h : (tokenize cls src).1 = .ok r) :
    r = [] ∨ ∃ pre, r = pre ++ [(⟨[], .EOF_⟩ : Token)] ∧
      ∀ t ∈ pre, t.type ≠ TokenType.EOF_ := by
  unfold tokenize at h
  cases hl : lexLoop (src.length + 1) cls .EOF_ [] src with
  | none => rw [hl] at h; simp at h
  | some p =>
    rcases p with ⟨res, cls2⟩
    rw [hl] at h
    dsimp at h
    rw [h] at hl
    exact lexLoop_ok_eof _ cls .EOF_ [] src r cls2 (by simp) hl

/-- C1, witness: the amended theorem applied to the source `x;` in a fresh
lexer state. -/
theorem C1_witness :
    ([(⟨['x'], .Identifier⟩ : Token), ⟨[';'], .Semicolon⟩, ⟨[], .EOF_⟩] = [] ∨
      ∃ pre, [(⟨['x'], .Identifier⟩ : Token), ⟨[';'], .Semicolon⟩, ⟨[], .EOF_⟩]
          = pre ++ [(⟨[], .EOF_⟩ : Token)] ∧
        ∀ t ∈ pre, t.type ≠ TokenType.EOF_) :=
  C1_theorem [] "x;".data _ rfl

/-- On an unrecognized character the lexer switch falls through every case and
returns the unrecognized-character result. -/
theorem lexStep_unrecognized (cls : List (List Char)) (last : TokenType) (c : Char)
    (cs : List Char) (h : unrecognizedChar c = true) :
    lexStep cls last c cs = .unrecognized := by
  simp only [unrecognizedChar, Bool.and_eq_true, Bool.not_eq_true', bne_iff_ne,
    ne_eq] at h
  obtain ⟨⟨⟨⟨⟨⟨⟨⟨⟨⟨⟨⟨⟨⟨⟨⟨⟨⟨⟨⟨⟨⟨⟨⟨h0, h1⟩, h2⟩, h3⟩, h4⟩, h5⟩, h6⟩, h7⟩, h8⟩, h9⟩, h10⟩, h11⟩, h12⟩, h13⟩, h14⟩, h15⟩, h16⟩, h17⟩, h18⟩, h19⟩, h20⟩, h21⟩, h22⟩, h23⟩, h24⟩ := h
  unfold lexStep
  rw [if_neg (by simp [h0])]
  split <;> simp_all

/-- An unterminated string scan without a raw newline succeeds, taking the
whole tail of the input as the literal text. -/
theorem buildString_unterminated (cs : List Char) (hq : '"' ∉ cs)
    (hn : '\n' ∉ cs) (hr : '\x0d' ∉ cs) :
    buildString cs = .ok (⟨cs, .string_literal⟩, []) := by
  have h1 : ¬cs.head? = some '"' := by
    intro hh
    cases cs with
    | nil => simp at hh
    | cons a t =>
      simp only [List.head?_cons, Option.some.injEq] at hh
      exact hq (by simp [hh])
  have htw : cs.takeWhile (fun x => x ≠ '"') = cs :=
    List.takeWhile_eq_self_iff.mpr (fun x hx => by
      simp only [ne_eq, decide_eq_true_eq]
      intro he
      exact hq (he ▸ hx))
  have hdw : cs.dropWhile (fun x => x ≠ '"') = [] :=
    List.dropWhile_eq_nil_iff.mpr (fun x hx => by
      simp only [ne_eq, decide_eq_true_eq]
      intro he
      exact hq (he ▸ hx))
  unfold buildString
  rw [if_neg h1, if_neg (by
    rw [htw]
    simp only [List.any_eq_true, Bool.or_eq_true, beq_iff_eq, not_exists, not_and]
    intro x hx
    rintro (rfl | rfl)
    · exact hn hx
    · exact hr hx), hdw, htw]

/-- A string scan that meets a raw newline or carriage return before the
closing quote raises the lex error. -/
theorem buildString_newline (cs : List Char)
    (hny : (cs.takeWhile (fun x => x ≠ '"')).any
      (fun x => x == '\n' || x == '\x0d') = true) :
    buildString cs = .error "invalid string literal!" := by
  have h1 : ¬cs.head? = some '"' := by
    intro hh
    cases cs with
    | nil => simp at hh
    | cons a t =>
      simp only [List.head?_cons, Option.some.injEq] at hh
      subst hh
      rw [List.takeWhile_cons_of_neg (by simp)] at hny
      simp at hny
  unfold buildString
  rw [if_neg h1, if_pos hny]

/-- C2 (amended): the lexer raises its error exactly at a string scan meeting
a raw newline or carriage return; an unterminated string without a newline
lexes successfully as a literal running to the end of the input; and an
unrecognized character produces the empty token list without an error. -/
theorem C2_theorem :
    (∀ (fuel : Nat) (cls : List (List Char)) (last : TokenType) (acc : List Token)
        (cs : List Char), '"' ∉ cs → '\n' ∉ cs → '\x0d' ∉ cs →
      lexLoop (fuel + 2) cls last acc ('"' :: cs) =
        some (.ok (acc ++ [⟨cs, .string_literal⟩, ⟨[], .EOF_⟩]), cls)) ∧
    (∀ (fuel : Nat) (cls : List (List Char)) (last : TokenType) (acc : List Token)
        (cs : List Char),
        (cs.takeWhile (fun x => x ≠ '"')).any (fun x => x == '\n' || x == '\x0d') = true →
      lexLoop (fuel + 1) cls last acc ('"' :: cs) =
        some (.error "invalid string literal!", cls)) ∧
    (∀ (fuel : Nat) (cls : List (List Char)) (last : TokenType) (acc : List Token)
        (c : Char) (cs : List Char), unrecognizedChar c = true →
      lexLoop (fuel + 1) cls last acc (c :: cs) = some (.ok [], cls)) := by
  refine ⟨?_, ?_, ?_⟩
  · intro fuel cls last acc cs hq hn hr
    have hstep : lexStep cls last '"' cs =
        (match buildString cs with
          | .ok (tok, rest) => StepRes.emit tok cls rest
          | .error e => StepRes.lexFail e) := rfl
    rw [lexLoop, hstep, buildString_unterminated cs hq hn hr]
    dsimp only
    rw [lexLoop]
    simp
  · intro fuel cls last acc cs hny
    have hstep : lexStep cls last '"' cs =
        (match buildString cs with
          | .ok (tok, rest) => StepRes.emit tok cls rest
          | .error e => StepRes.lexFail e) := rfl
    rw [lexLoop, hstep, buildString_newline cs hny]
  · intro fuel cls last acc c cs h
    rw [lexLoop, lexStep_unrecognized cls last c cs h]

/-- C2, witness: the three parts instantiated — the unterminated input
`"abc`, the invalid literal `"` followed by a newline, and the unrecognized
character `#`. -/
theorem C2_witness :
    lexLoop 2 [] .EOF_ [] ('"' :: "abc".data) =
      some (.ok [⟨"abc".data, .string_literal⟩, ⟨[], .EOF_⟩], []) ∧
    lexLoop 1 [] .EOF_ [] ['"', '\n'] =
      some (.error "invalid string literal!", []) ∧
    lexLoop 1 [] .EOF_ [] ['#'] = some (.ok [], []) := by
  refine ⟨?_, ?_, ?_⟩
  · exact C2_theorem.1 0 [] .EOF_ [] "abc".data (by decide) (by decide) (by decide)
  · exact C2_theorem.2.1 0 [] .EOF_ [] ['\n'] (by decide)
  · exact C2_theorem.2.2 0 [] .EOF_ [] '#' [] (by decide)

/-- Inserting the same name into equivalent sets preserves equivalence. -/
theorem insertClassname_equiv (a b : List (List Char)) (hab : clsEquiv a b)
    (id : List Char) : clsEquiv (insertClassname id a) (insertClassname id b) := by
  intro x
  unfold insertClassname
  rw [hab id]
  by_cases hc : b.contains id = true
  · rw [if_pos hc, if_pos hc]
    exact hab x
  · rw [if_neg hc, if_neg hc]
    simp only [List.contains_cons]
    rw [hab x]

/-- Identifier classification depends on the class-name set only through
membership, and preserves set equivalence. -/
theorem buildIdentifier_equiv (a b : List (List Char)) (hab : clsEquiv a b)
    (last : TokenType) (id : List Char) :
    (buildIdentifier a last id).1 = (buildIdentifier b last id).1 ∧
    clsEquiv (buildIdentifier a last id).2 (buildIdentifier b last id).2 := by
  unfold buildIdentifier
  by_cases hb : id = "false".data ∨ id = "true".data
  · rw [if_pos hb, if_pos hb]
    exact ⟨rfl, hab⟩
  · rw [if_neg hb, if_neg hb]
    cases hk : KEYWORDS id with
    | some kw => simp only [hk]; exact ⟨by trivial, hab⟩
    | none =>
      simp only [hk]
      by_cases hd : isDefaultType id = true
      · rw [if_pos hd, if_pos hd]
        by_cases hstr : id = "String".data
        · rw [if_pos hstr, if_pos hstr]; exact ⟨rfl, hab⟩
        · rw [if_neg hstr, if_neg hstr]; exact ⟨rfl, hab⟩
      · rw [if_neg hd, if_neg hd]
        by_cases hcl : last = TokenType.class_
        · rw [if_pos hcl, if_pos hcl]
          exact ⟨rfl, insertClassname_equiv a b hab id⟩
        · rw [if_neg hcl, if_neg hcl, hab id]
          by_cases hco : b.contains id = true
          · rw [if_pos hco, if_pos hco]; exact ⟨rfl, hab⟩
          · rw [if_neg hco, if_neg hco]; exact ⟨rfl, hab⟩

/-- A lexer step reads the class-name set only through membership. -/
theorem lexStep_equiv (a b : List (List Char)) (hab : clsEquiv a b)
    (last : TokenType) (c : Char) (cs : List Char) :
    StepRes.equivRes (lexStep a last c cs) (lexStep b last c cs) := by
  unfold lexStep
  by_cases hs : isSkippable c = true
  · rw [if_pos hs, if_pos hs]
  · rw [if_neg hs, if_neg hs]
    repeat' split
    all_goals first
      | trivial
      | exact ⟨rfl, rfl, hab⟩
      | exact ⟨(buildIdentifier_equiv a b hab last _).1, rfl,
               (buildIdentifier_equiv a b hab last _).2⟩

/-- The scan loop reads the class-name set only through membership. -/
theorem lexLoop_equiv : ∀ (fuel : Nat) (a b : List (List Char)) (last : TokenType)
    (acc : List Token) (src : List Char), clsEquiv a b →
    lexOutEquiv (lexLoop fuel a last acc src) (lexLoop fuel b last acc src) := by
  intro fuel
  induction fuel with
  | zero => intro a b last acc src hab; trivial
  | succ n ih =>
    intro a b last acc src hab
    cases src with
    | nil => exact ⟨rfl, hab⟩
    | cons c cs =>
      rw [lexLoop, lexLoop]
      have hst := lexStep_equiv a b hab last c cs
      cases hsa : lexStep a last c cs with
      | emit tokA clsA restA =>
        cases hsb : lexStep b last c cs with
        | emit tokB clsB restB =>
          rw [hsa, hsb] at hst
          obtain ⟨ht, hr, hc⟩ := hst
          subst ht
          subst hr
          exact ih _ _ _ _ _ hc
        | skip r => exact False.elim (by rw [hsa, hsb] at hst; exact hst)
        | lexFail m => exact False.elim (by rw [hsa, hsb] at hst; exact hst)
        | unrecognized => exact False.elim (by rw [hsa, hsb] at hst; exact hst)
      | skip restA =>
        cases hsb : lexStep b last c cs with
        | emit tokB clsB restB => exact False.elim (by rw [hsa, hsb] at hst; exact hst)
        | skip restB =>
          rw [hsa, hsb] at hst
          obtain rfl := hst
          exact ih _ _ _ _ _ hab
        | lexFail m => exact False.elim (by rw [hsa, hsb] at hst; exact hst)
        | unrecognized => exact False.elim (by rw [hsa, hsb] at hst; exact hst)
      | lexFail m =>
        cases hsb : lexStep b last c cs with
        | emit tokB clsB restB => exact False.elim (by rw [hsa, hsb] at hst; exact hst)
        | skip restB => exact False.elim (by rw [hsa, hsb] at hst; exact hst)
        | lexFail m2 =>
          rw [hsa, hsb] at hst
          obtain rfl := hst
          exact ⟨rfl, hab⟩
        | unrecognized => exact False.elim (by rw [hsa, hsb] at hst; exact hst)
      | unrecognized =>
        cases hsb : lexStep b last c cs with
        | emit tokB clsB restB => exact False.elim (by rw [hsa, hsb] at hst; exact hst)
        | skip restB => exact False.elim (by rw [hsa, hsb] at hst; exact hst)
        | lexFail m2 => exact False.elim (by rw [hsa, hsb] at hst; exact hst)
        | unrecognized => exact ⟨rfl, hab⟩

/-- C3 (amended): `tokenize` is a pure function of the source together with
the membership contents of the `user_defined_classnames` set — calls with
membership-equivalent sets return identical token-list results and leave
membership-equivalent sets behind.  (Its output is not a function of the
source alone; see the counterexample.) -/
theorem C3_theorem (a b : List (List Char)) (src : List Char) (hab : clsEquiv a b) :
    (tokenize a src).1 = (tokenize b src).1 ∧
    clsEquiv (tokenize a src).2 (tokenize b src).2 := by
  unfold tokenize
  have h := lexLoop_equiv (src.length + 1) a b .EOF_ [] src hab
  cases ha : lexLoop (src.length + 1) a .EOF_ [] src with
  | none =>
    cases hb : lexLoop (src.length + 1) b .EOF_ [] src with
    | none => exact ⟨rfl, hab⟩
    | some pb => rw [ha, hb] at h; exact False.elim h
  | some pa =>
    cases hb : lexLoop (src.length + 1) b .EOF_ [] src with
    | none => rw [ha, hb] at h; exact False.elim h
    | some pb =>
      rcases pa with ⟨ra, ca⟩
      rcases pb with ⟨rb, cb⟩
      rw [ha, hb] at h
      exact ⟨h.1, h.2⟩

/-- C3, witness: the amended theorem applied to two different but
membership-equivalent snapshots of the class-name set on the source `Foo`. -/
theorem C3_witness :
    (tokenize ["Foo".data] "Foo".data).1 =
      (tokenize ["Foo".data, "Foo".data] "Foo".data).1 ∧
    clsEquiv (tokenize ["Foo".data] "Foo".data).2
      (tokenize ["Foo".data, "Foo".data] "Foo".data).2 :=
  C3_theorem ["Foo".data] ["Foo".data, "Foo".data] "Foo".data (by
    intro id
    simp only [List.contains_cons]
    cases id == "Foo".data <;> simp)

/-- A digit differs from any non-digit character. -/
theorem isInt_ne (d s : Char) (hd : isInt d = true) (hs : isInt s = false) : d ≠ s := by
  intro h
  subst h
  rw [hd] at hs
  cases hs

/-- Digits are not whitespace. -/
theorem isSkippable_isInt (d : Char) (hd : isInt d = true) : isSkippable d = false := by
  by_contra hc
  simp only [Bool.not_eq_false] at hc
  simp only [isSkippable, Bool.or_eq_true, beq_iff_eq] at hc
  rcases hc with ((rfl | rfl) | rfl) | rfl <;> exact absurd hd (by decide)

/-- At a digit the lexer switch falls to the default case and builds a
number. -/
theorem lexStep_digit (cls : List (List Char)) (last : TokenType) (d : Char)
    (cs : List Char) (hd : isInt d = true) :
    lexStep cls last d cs =
      .emit (buildNumber false (d :: cs)).1 cls (buildNumber false (d :: cs)).2 := by
  unfold lexStep
  rw [if_neg (by simp [isSkippable_isInt d hd])]
  split
  all_goals first
    | exact absurd hd (by decide)
    | rw [if_pos hd]

/-- `buildNumber` on a maximal digit run followed by a non-dot character
emits an `integer_literal` of exactly those digits. -/
theorem buildNumber_digits_integer (d : Char) (ds : List Char) (c : Char)
    (r : List Char) (hd : isInt d = true) (hds : ∀ x ∈ ds, isInt x = true)
    (hc : isInt c = false) (hdot : c ≠ '.') :
    buildNumber false (d :: (ds ++ c :: r)) = (⟨d :: ds, .integer_literal⟩, c :: r) := by
  have htw : (d :: (ds ++ c :: r)).takeWhile isInt = d :: ds := by
    rw [List.takeWhile_cons_of_pos hd, List.takeWhile_append_of_pos hds,
      List.takeWhile_cons_of_neg (by simp [hc]), List.append_nil]
  have hdw : (d :: (ds ++ c :: r)).dropWhile isInt = c :: r := by
    rw [List.dropWhile_cons_of_pos hd, List.dropWhile_append_of_pos hds,
      List.dropWhile_cons_of_neg (by simp [hc])]
  unfold buildNumber
  rw [hdw, htw]
  simp [hdot]

/-- `buildNumber` on a digit run that ends the input falls through the
integer branch, appends the NUL read at `srctext[LENGTH]`, and emits a
`float_literal`. -/
theorem buildNumber_digits_end (d : Char) (ds : List Char) (hd : isInt d = true)
    (hds : ∀ x ∈ ds, isInt x = true) :
    buildNumber false (d :: ds) = (⟨d :: ds ++ ['\x00'], .float_literal⟩, []) := by
  have htw : (d :: ds).takeWhile isInt = d :: ds := by
    rw [List.takeWhile_cons_of_pos hd, List.takeWhile_eq_self_iff.mpr hds]
  have hdw : (d :: ds).dropWhile isInt = [] := by
    rw [List.dropWhile_cons_of_pos hd, List.dropWhile_eq_nil_iff.mpr hds]
  unfold buildNumber
  rw [hdw, htw]
  simp

/-- The token built by `buildNumber true` has a text starting with the minus
sign. -/
theorem buildNumber_true_value (l : List Char) :
    ∃ t, (buildNumber true l).1.value = '-' :: t := by
  unfold buildNumber
  repeat' split
  all_goals first
    | exact ⟨_, rfl⟩
    | exact absurd rfl ‹¬true = true›

/-- The token built by `buildNumber true` is a `negative_integer_literal` or a
`float_literal`. -/
theorem buildNumber_true_type (l : List Char) :
    (buildNumber true l).1.type = .negative_integer_literal ∨
    (buildNumber true l).1.type = .float_literal := by
  unfold buildNumber
  repeat' split
  all_goals first
    | exact absurd rfl ‹¬true = true›
    | simp

/-- C10: a maximal digit run that ends the input is emitted as a
`float_literal` (the end-of-input check falls through the integer branch and
the NUL terminator is appended to the text), while the same digits followed by
a non-dot, non-digit character are emitted as an `integer_literal`. -/
theorem C10_theorem :
    (∀ (fuel : Nat) (cls : List (List Char)) (last : TokenType) (acc : List Token)
        (d : Char) (ds : List Char), isInt d = true → (∀ x ∈ ds, isInt x = true) →
      lexLoop (fuel + 2) cls last acc (d :: ds) =
        some (.ok (acc ++ [⟨d :: ds ++ ['\x00'], .float_literal⟩, ⟨[], .EOF_⟩]), cls)) ∧
    (∀ (cls : List (List Char)) (last : TokenType) (d : Char) (ds : List Char)
        (c : Char) (r : List Char), isInt d = true → (∀ x ∈ ds, isInt x = true) →
      isInt c = false → c ≠ '.' →
      lexStep cls last d (ds ++ c :: r) =
        .emit ⟨d :: ds, .integer_literal⟩ cls (c :: r)) := by
  constructor
  · intro fuel cls last acc d ds hd hds
    rw [lexLoop, lexStep_digit cls last d ds hd, buildNumber_digits_end d ds hd hds]
    dsimp only
    rw [lexLoop]
    simp
  · intro cls last d ds c r hd hds hc hdot
    rw [lexStep_digit cls last d (ds ++ c :: r) hd,
      buildNumber_digits_integer d ds c r hd hds hc hdot]

/-- C10, witness: the digits `42` at the end of the input lex as a
`float_literal`, while `42;` yields an `integer_literal`. -/
theorem C10_witness :
    lexLoop 2 [] .EOF_ [] ['4', '2'] =
      some (.ok [⟨'4' :: ['2'] ++ ['\x00'], .float_literal⟩, ⟨[], .EOF_⟩], []) ∧
    lexStep [] .EOF_ '4' (['2'] ++ ';' :: []) =
      .emit ⟨'4' :: ['2'], .integer_literal⟩ [] (';' :: []) := by
  constructor
  · exact C10_theorem.1 0 [] .EOF_ [] '4' ['2'] (by decide) (by decide)
  · exact C10_theorem.2 [] .EOF_ '4' ['2'] ';' [] (by decide) (by decide) (by decide)
      (by decide)

/-- The lexer step at a minus sign, written out: the `->` check comes first,
then the signed-context number scan, then `--`, then plain `Minus`. -/
theorem lexStep_minus (cls : List (List Char)) (last : TokenType) (l : List Char) :
    lexStep cls last '-' l =
      (if l.head? = some '>' then StepRes.emit ⟨['-', '>'], .Pointer⟩ cls l.tail
       else if (last.isBinaryOperator || last == TokenType.Equals
           || last == TokenType.OParen || last == TokenType.Comma) = true then
         StepRes.emit (buildNumber true l).1 cls (buildNumber true l).2
       else if l.head? = some '-' then StepRes.emit ⟨['-', '-'], .MinusMinus⟩ cls l.tail
       else StepRes.emit ⟨['-'], .Minus⟩ cls l) := rfl

/-- C4 (amended): after a binary operator, `Equals`, `OParen` or `Comma`, a
minus followed by a digit is consumed into a single numeric token whose text
starts with the minus sign and whose kind is `negative_integer_literal` or
`float_literal`; in any other context the lexer emits a `Minus` token and the
digits are scanned separately — as an `integer_literal` when followed by a
non-dot character (and as a `float_literal` otherwise, see the
counterexample); the three numeric kinds are pairwise distinct. -/
theorem C4_theorem :
    (∀ (fuel : Nat) (cls : List (List Char)) (last : TokenType) (acc : List Token)
        (d : Char) (l : List Char),
        (last.isBinaryOperator || last == TokenType.Equals
          || last == TokenType.OParen || last == TokenType.Comma) = true →
        isInt d = true →
      ∃ tok rest, (∃ t, tok.value = '-' :: t) ∧
        (tok.type = TokenType.negative_integer_literal ∨
          tok.type = TokenType.float_literal) ∧
        lexLoop (fuel + 1) cls last acc ('-' :: d :: l) =
          lexLoop fuel cls tok.type (acc ++ [tok]) rest) ∧
    (∀ (fuel : Nat) (cls : List (List Char)) (last : TokenType) (acc : List Token)
        (d : Char) (ds : List Char) (c : Char) (r : List Char),
        (last.isBinaryOperator || last == TokenType.Equals
          || last == TokenType.OParen || last == TokenType.Comma) = false →
        isInt d = true → (∀ x ∈ ds, isInt x = true) →
        isInt c = false → c ≠ '.' →
      lexLoop (fuel + 2) cls last acc ('-' :: (d :: ds ++ c :: r)) =
        lexLoop fuel cls .integer_literal
          (acc ++ [⟨['-'], .Minus⟩, ⟨d :: ds, .integer_literal⟩]) (c :: r)) ∧
    (TokenType.integer_literal ≠ TokenType.negative_integer_literal ∧
     TokenType.integer_literal ≠ TokenType.float_literal ∧
     TokenType.negative_integer_literal ≠ TokenType.float_literal) := by
  refine ⟨?_, ?_, by decide, by decide, by decide⟩
  · intro fuel cls last acc d l hsig hd
    refine ⟨(buildNumber true (d :: l)).1, (buildNumber true (d :: l)).2,
      buildNumber_true_value (d :: l), buildNumber_true_type (d :: l), ?_⟩
    rw [lexLoop, lexStep_minus]
    rw [if_neg (by simp [isInt_ne d '>' hd (by decide)]), if_pos hsig]
  · intro fuel cls last acc d ds c r hsig hd hds hc hdot
    rw [lexLoop, lexStep_minus]
    rw [if_neg (by simp [isInt_ne d '>' hd (by decide)]), if_neg (by rw [hsig]; decide),
      if_neg (by simp [isInt_ne d '-' hd (by decide)])]
    dsimp only
    rw [List.cons_append, lexLoop]
    rw [lexStep_digit cls TokenType.Minus d (ds ++ c :: r) hd]
    rw [buildNumber_digits_integer d ds c r hd hds hc hdot]
    dsimp only
    rw [List.append_assoc]
    rfl

/-- C4, witness: the two context cases instantiated — `(-3` scans a single
signed literal, while after an identifier `-3;` scans as Minus followed by an
integer literal. -/
theorem C4_witness :
    (∃ tok rest, (∃ t, tok.value = '-' :: t) ∧
      (tok.type = TokenType.negative_integer_literal ∨
        tok.type = TokenType.float_literal) ∧
      lexLoop 1 [] .OParen [] ('-' :: '3' :: []) =
        lexLoop 0 [] tok.type ([] ++ [tok]) rest) ∧
    lexLoop 2 [] .Identifier [] ('-' :: ('3' :: [] ++ ';' :: [])) =
      lexLoop 0 [] .integer_literal
        ([] ++ [⟨['-'], .Minus⟩, ⟨['3'], .integer_literal⟩]) (';' :: []) := by
  constructor
  · exact C4_theorem.1 0 [] .OParen [] '3' [] (by decide) (by decide)
  · exact C4_theorem.2.1 0 [] .Identifier [] '3' [] ';' [] (by decide) (by decide)
      (by decide) (by decide) (by decide)

/-- The mutable flag eaten by `eatIfMutable` is exactly the test of the head
token against the `mutable` keyword kind. -/
theorem eatIfMutable_fst (l : List Token) :
    (eatIfMutable l).1 = decide ((peek l).type = .mutable_) := by
  by_cases hm : (peek l).type = .mutable_
  · simp [eatIfMutable, hm]
  · simp [eatIfMutable, hm]

/-- C5: every node a successful `parseVariableDeclaration` produces is a
`VariableDeclaration`; when it carries no initializer (the `Semicolon` branch)
its mutability flag is `false` regardless of the source prefix, and when it
carries an initializer (the `Equals` branch) the flag mirrors the presence of
the `mutable` prefix at the start of the declaration. -/
theorem C5_theorem (fuel : Nat) (toks rest : List Token) (e : Expression)
    (h : parseVariableDeclaration fuel toks = .ok (e, rest)) :
    ∃ m ty nm v, e = .variableDeclaration m ty nm v ∧
      (v = none → m = false) ∧
      (v ≠ none → m = decide ((peek toks).type = .mutable_)) := by
  match fuel with
  | 0 => exact Except.noConfusion h
  | n + 1 =>
    rw [parseVariableDeclaration] at h
    split at h
    · exact Except.noConfusion h
    · split at h
      · exact Except.noConfusion h
      · split at h
        · injection h with h1
          injection h1 with he hr
          subst he
          exact ⟨false, _, _, none, rfl, fun _ => rfl, fun hv => absurd rfl hv⟩
        · split at h
          · exact Except.noConfusion h
          · split at h
            · exact Except.noConfusion h
            · injection h with h1
              injection h1 with he hr
              subst he
              refine ⟨_, _, _, some _, rfl, fun hv => Option.noConfusion hv, fun _ => ?_⟩
              exact eatIfMutable_fst toks

/-- C5, witness: the theorem applied to the declaration
`mutable int32 y = 1;`, whose parse yields a mutable node with a present
initializer. -/
theorem C5_witness :
    ∃ m ty nm v,
      Expression.variableDeclaration true ⟨"int32".data, true, false, false⟩ ['y']
          (some (.numericLiteral .U64 ['1'])) = .variableDeclaration m ty nm v ∧
      (v = none → m = false) ∧
      (v ≠ none → m = decide ((peek exMutInit).type = .mutable_)) :=
  C5_theorem 20 exMutInit [eofTok] _ rfl

/-- C9 (amended): in a parameter list a trailing comma before the closing
paren is accepted — the loop eats the comma, sees `CParen` (not a type token)
and stops with the parameter already recorded — while after a parsed parameter
any token other than `Comma` or `CParen` raises the error naming the
function. -/
theorem C9_theorem :
    (parseParamList ['f'] 50 (⟨"int32".data, .PrimitiveType⟩ :: ⟨['a'], .Identifier⟩ ::
        ⟨[','], .Comma⟩ :: ⟨[')'], .CParen⟩ :: [eofTok])
      = .ok ([⟨false, "int32".data, false, false, ['a']⟩], ⟨[')'], .CParen⟩ :: [eofTok])) ∧
    (∀ (fname : List Char) (n : Nat) (bad : Token) (rest : List Token),
      bad.type ≠ .Comma → bad.type ≠ .CParen →
      parseParamList fname (n + 1) (⟨"int32".data, .PrimitiveType⟩ :: ⟨['a'], .Identifier⟩ ::
          bad :: rest)
        = .error ("invalid parameter list for function " ++ String.mk fname)) := by
  refine ⟨rfl, ?_⟩
  intro fname n bad rest hbc hbp
  obtain ⟨bv, bt⟩ := bad
  cases bt <;> first
  | exact absurd rfl hbc
  | exact absurd rfl hbp
  | rfl

/-- C9, witness: the separator theorem applied to a `Semicolon` token sitting
after the first parameter of `f`. -/
theorem C9_witness :
    parseParamList ['f'] 3 (⟨"int32".data, .PrimitiveType⟩ :: ⟨['a'], .Identifier⟩ ::
        (⟨[';'], .Semicolon⟩ : Token) :: [])
      = .error ("invalid parameter list for function " ++ String.mk ['f']) :=
  C9_theorem.2 ['f'] 2 ⟨[';'], .Semicolon⟩ [] (by decide) (by decide)

/-- Binding after a failed `Except` computation fails. -/
theorem bind_isOk_false {α β : Type} (x : Except String α) (f : α → Except String β)
    (h : x.isOk = false) : (x >>= f).isOk = false := by
  cases x with
  | error s => rfl
  | ok a => exact absurd h (by simp [Except.isOk, Except.toBool])

/-- The top-level expression entry rejects an input starting with an `if`
token, for every fuel and every tail: the variable-declaration route fails at
the type check and the general route bottoms out at
`parsePrimaryExpression`, which has no case for `if`. -/
theorem parseExpression_if_err (n : Nat) (rest : List Token) :
    (parseExpression true n (⟨"if".data, .if_⟩ :: rest)).isOk = false := by
  match n with
  | 0 => rfl
  | 1 => rfl
  | n + 2 =>
    show (parseAssignmentExpression true (n + 1) (⟨"if".data, .if_⟩ :: rest)).isOk = false
    rw [parseAssignmentExpression]
    split
    · match n with
      | 0 => rfl
      | n + 1 => rfl
    · match n with
      | 0 => rfl
      | 1 => rfl
      | 2 => rfl
      | 3 => rfl
      | 4 => rfl
      | 5 => rfl
      | n + 6 => rfl

/-- C6 (amended): the braced body of an if statement is parsed item by item
with `parseExpression` (the top-level expression entry), not with the full
statement dispatcher, so a nested if statement inside the braces is rejected
for every fuel and tail; in the unbraced single-statement form the dispatcher
runs with declarations disallowed, so a namespace or class declaration there
is the dedicated error while a nested if statement (`if (true) if (true)
x = 1;`) and a braced assignment body both parse. -/
theorem C6_theorem :
    (∀ n rest, (parseIfBody n (⟨"if".data, .if_⟩ :: rest)).isOk = false) ∧
    (∀ n rest, parseStatement false (n + 1) (⟨"namespace".data, .namespace_⟩ :: rest)
        = .error "cannot create namespace inside of if statement") ∧
    (∀ n rest, parseStatement false (n + 1) (⟨"class".data, .class_⟩ :: rest)
        = .error "cannot create class inside of if statement") ∧
    (parseIfStatement 50 exIfAssignBraced).isOk = true ∧
    (parseIfStatement 50 exIfNestedUnbraced).isOk = true := by
  refine ⟨?_, ?_, ?_, ?_, ?_⟩
  · intro n rest
    match n with
    | 0 => rfl
    | n + 1 =>
      rw [parseIfBody]
      rw [if_neg (fun hcc => nomatch hcc)]
      exact bind_isOk_false _ _ (parseExpression_if_err n rest)
  · intro n rest
    rfl
  · intro n rest
    rfl
  · rfl
  · rfl

end TLang
